import Mathlib

/-!
Verification of the GameJolt API client (`gamejolt.py`): a shallow embedding
of the request-signing-and-dispatch pipeline (URL signing via SHA-1,
`functools.lru_cache`-memoized signer, synchronous parameter assembly in the
endpoint builders, and the worker-side response mapping), with theorems
settling the specification's claims about it.

Machine integers are modelled as `Nat` with explicit reduction modulo `2^32`
where the source's hash arithmetic wraps; byte strings are `List Nat` of
values below 256.
-/

namespace GameJolt

/-! ## SHA-1 (the `hashlib.sha1(...).hexdigest()` call in `_encode_signed_url`)

A faithful executable SHA-1 over byte lists, 32-bit words as `Nat < 2^32`. -/

/-- 2^32, the word modulus of SHA-1 arithmetic. -/
def w32 : Nat := 4294967296

/-- Left-rotate a 32-bit word (a `Nat` below `2^32`) by `n` bits. -/
def rotl (n x : Nat) : Nat := ((x <<< n) ||| (x >>> (32 - n))) % w32

/-- Big-endian bytes of `n`, `k` bytes wide. -/
def beBytes (k n : Nat) : List Nat :=
  (List.range k).map (fun i => (n >>> (8 * (k - 1 - i))) % 256)

/-- SHA-1 message padding: append `0x80`, zero bytes to 56 mod 64, then the
bit length as 8 big-endian bytes. -/
def sha1pad (msg : List Nat) : List Nat :=
  let len := msg.length
  let zeros := (120 - ((len + 1) % 64)) % 64
  msg ++ [128] ++ List.replicate zeros 0 ++ beBytes 8 (8 * len)

/-- Split a byte list into 64-byte chunks (`n` is fuel, the list length). -/
def chunksGo : Nat → List Nat → List (List Nat)
  | 0, _ => []
  | _ + 1, [] => []
  | n + 1, l => l.take 64 :: chunksGo n (l.drop 64)

/-- Split a byte list into 64-byte chunks. -/
def chunks64 (l : List Nat) : List (List Nat) := chunksGo l.length l

/-- The 16 initial 32-bit words of a 64-byte chunk, big-endian. -/
def wordsOfChunk (c : List Nat) : List Nat :=
  (List.range 16).map (fun i =>
    (c.getD (4 * i) 0) <<< 24 + (c.getD (4 * i + 1) 0) <<< 16 +
    (c.getD (4 * i + 2) 0) <<< 8 + c.getD (4 * i + 3) 0)

/-- Message-schedule extension step, on the reversed word list (most recent
word first): prepend `rotl 1 (w16 xor w14 xor w8 xor w3)`. -/
def extGo : Nat → List Nat → List Nat
  | 0, r => r
  | n + 1, r =>
    extGo n ((rotl 1 ((r.getD 2 0) ^^^ (r.getD 7 0) ^^^ (r.getD 13 0) ^^^ (r.getD 15 0))) :: r)

/-- The 80-word SHA-1 message schedule of a chunk's 16 initial words. -/
def sched (ws : List Nat) : List Nat := (extGo 64 ws.reverse).reverse

/-- The five-word SHA-1 state. -/
structure H5 where
  a : Nat
  b : Nat
  c : Nat
  d : Nat
  e : Nat
  deriving Repr, DecidableEq

/-- One SHA-1 compression round: round index `i`, schedule word `w`. -/
def sha1round (st : H5) (iw : Nat × Nat) : H5 :=
  let i := iw.1
  let w := iw.2
  let f :=
    if i < 20 then (st.b &&& st.c) ||| ((st.b ^^^ 4294967295) &&& st.d)
    else if i < 40 then st.b ^^^ st.c ^^^ st.d
    else if i < 60 then (st.b &&& st.c) ||| (st.b &&& st.d) ||| (st.c &&& st.d)
    else st.b ^^^ st.c ^^^ st.d
  let k :=
    if i < 20 then 1518500249
    else if i < 40 then 1859775393
    else if i < 60 then 2400959708
    else 3395469782
  let temp := (rotl 5 st.a + f + st.e + k + w) % w32
  { a := temp, b := st.a, c := rotl 30 st.b, d := st.c, e := st.d }

/-- Process one 64-byte chunk into the running hash state. -/
def sha1chunk (h : H5) (chunk : List Nat) : H5 :=
  let ws := sched (wordsOfChunk chunk)
  let st := ws.enum.foldl sha1round h
  { a := (h.a + st.a) % w32, b := (h.b + st.b) % w32, c := (h.c + st.c) % w32,
    d := (h.d + st.d) % w32, e := (h.e + st.e) % w32 }

/-- SHA-1 initial state. -/
def sha1init : H5 :=
  { a := 1732584193, b := 4023233417, c := 2562383102, d := 271733878, e := 3285377520 }

/-- The SHA-1 digest of a byte list, as five 32-bit words. -/
def sha1 (msg : List Nat) : H5 := (chunks64 (sha1pad msg)).foldl sha1chunk sha1init

/-- The lowercase hex digit characters, in value order: digits `0`-`9`
(code points 48-57) then letters `a`-`f` (code points 97-102). -/
def hexChars : List Char :=
  (List.range 16).map (fun n => if n < 10 then Char.ofNat (48 + n) else Char.ofNat (87 + n))

/-- Lowercase hex digit of a value below 16. -/
def hexDigit (n : Nat) : Char := hexChars.getD n '0'

/-- The 8 lowercase hex characters of a 32-bit word, most significant first. -/
def wordHex (n : Nat) : List Char :=
  (List.range 8).map (fun i => hexDigit ((n >>> (4 * (7 - i))) % 16))

/-- `hashlib.sha1(bytes).hexdigest()`: the 40-character lowercase hex digest. -/
def sha1hexdigest (msg : List Nat) : String :=
  let h := sha1 msg
  String.mk (wordHex h.a ++ wordHex h.b ++ wordHex h.c ++ wordHex h.d ++ wordHex h.e)

/-! ## ASCII encoding (`bytearray(s, encoding='ascii')`)

Python raises `UnicodeEncodeError` when any character is outside ASCII;
otherwise the bytes are the code points. -/

/-- Every character of the string is ASCII (code point below 128). -/
def allAscii (s : String) : Bool := s.data.all (fun c => c.toNat < 128)

/-- The ASCII bytes of a string (meaningful when `allAscii s`). -/
def asciiBytes (s : String) : List Nat := s.data.map Char.toNat

/-! ## `urllib.parse.urlencode` with its default `quote_via=quote_plus`

`urlencode(d)` produces `k1=v1&k2=v2&...` in insertion order, applying
`str()` then `quote_plus` to each key and value.  `quote_plus` leaves
alphanumerics and `_.-~` untouched, turns a space into `+`, and
percent-encodes every other character's UTF-8 bytes with uppercase hex. -/

/-- The bytes `quote`/`quote_plus` never escape: ASCII alphanumerics and
`_`, `.`, `-`, `~` (urllib's always-safe set with default `safe=''`). -/
def alwaysSafe (b : Nat) : Bool :=
  (48 ≤ b && b ≤ 57) || (65 ≤ b && b ≤ 90) || (97 ≤ b && b ≤ 122) ||
  b == 95 || b == 46 || b == 45 || b == 126

/-- Uppercase hex digit of a value below 16 (percent-escapes use uppercase):
digits `0`-`9` (code points 48-57) then letters `A`-`F` (65-70). -/
def hexDigitUpper (n : Nat) : Char :=
  if n < 10 then Char.ofNat (48 + n) else Char.ofNat (55 + n)

/-- Percent-escape or pass through one byte, per `urllib.parse.quote`. -/
def quoteByte (b : Nat) : List Char :=
  if alwaysSafe b then [Char.ofNat b]
  else ['%', hexDigitUpper (b / 16 % 16), hexDigitUpper (b % 16)]

/-- The UTF-8 bytes of a character (Python strings are encoded as UTF-8
before percent-escaping). -/
def utf8Bytes (c : Char) : List Nat :=
  let n := c.toNat
  if n < 128 then [n]
  else if n < 2048 then [192 + n / 64, 128 + n % 64]
  else if n < 65536 then [224 + n / 4096, 128 + n / 64 % 64, 128 + n % 64]
  else [240 + n / 262144, 128 + n / 4096 % 64, 128 + n / 64 % 64, 128 + n % 64]

/-- `urllib.parse.quote_plus` with default `safe=''`: space becomes `+`,
safe bytes pass through, the rest are percent-escaped. -/
def quotePlus (s : String) : String :=
  String.mk (s.data.flatMap (fun c =>
    if c = ' ' then ['+'] else (utf8Bytes c).flatMap quoteByte))

/-- A Python value as it appears in the request-parameter dict: a string,
an int, or `None`. -/
inductive PyVal
  | str (s : String)
  | int (n : Int)
  | pynone
  deriving Repr, DecidableEq

/-- Python `str()` of a parameter value. -/
def PyVal.pyStr : PyVal → String
  | .str s => s
  | .int n => toString n
  | .pynone => "None"

/-- Python truthiness of a parameter value (`if value:`): `None` and `0`
and the empty string are falsy. -/
def PyVal.truthy : PyVal → Bool
  | .str s => !s.isEmpty
  | .int n => n != 0
  | .pynone => false

/-- Python `a or b`: `a` when truthy, else `b` (as in `score or sort`). -/
def pyOr (a b : PyVal) : PyVal := if a.truthy then a else b

/-- A Python dict with string keys, modelled as an insertion-ordered
association list (no builder ever re-assigns an existing key, so
assignment appends). -/
abbrev Dict := List (String × PyVal)

/-- Dict assignment `d[k] = v`: overwrite in place when present, else
append (Python dicts keep the original position on overwrite). -/
def dictSet (d : Dict) (k : String) (v : PyVal) : Dict :=
  match d with
  | [] => [(k, v)]
  | (k0, v0) :: rest =>
    if k0 = k then (k0, v) :: rest else (k0, v0) :: dictSet rest k v

/-- Dict lookup `d.get(k)`. -/
def dictGet (d : Dict) (k : String) : Option PyVal :=
  match d with
  | [] => Option.none
  | (k0, v0) :: rest => if k0 = k then some v0 else dictGet rest k

/-- `urlencode(values)`: `&`-joined `quote_plus(str(k)) = quote_plus(str(v))`
pairs in insertion order. -/
def urlencode (values : Dict) : String :=
  String.intercalate "&"
    (values.map (fun kv => quotePlus kv.1 ++ "=" ++ quotePlus kv.2.pyStr))

/-! ## The `functools.lru_cache()` memoization of `_encode_signed_url`

`lru_cache()` with no arguments has `maxsize=128`: a bounded cache that
evicts the least-recently-used entry.  A hit moves the entry to the
most-recent position; a miss computes the value (an exception is not
cached), inserts it most-recent, and drops the least-recent entry when the
bound is exceeded. -/

/-- The default `maxsize` of `functools.lru_cache()`. -/
def lruMaxsize : Nat := 128

/-- The memoization cache: entries most-recent first. -/
structure Lru where
  entries : List (String × String)
  deriving Repr, DecidableEq

/-- Cache lookup, by exact key string. -/
def lruLookup (c : Lru) (k : String) : Option String :=
  (c.entries.find? (fun e => e.1 == k)).map (fun e => e.2)

/-- Call `f` through the cache: on a hit return the cached value and move
it to the front; on a miss compute `f k` (`Option.none` models an exception,
which is not cached), insert the result at the front, and truncate to
`lruMaxsize` entries. -/
def lruCall (f : String → Option String) (c : Lru) (k : String) :
    Option (String × Lru) :=
  match lruLookup c k with
  | some v => some (v, ⟨(k, v) :: c.entries.filter (fun e => e.1 != k)⟩)
  | Option.none =>
    match f k with
    | Option.none => Option.none
    | some v => some (v, ⟨((k, v) :: c.entries).take lruMaxsize⟩)

/-! ## The client (`class GameJoltAPI`)

The executor handle is not part of the model; what `_submit` hands to it —
the signed URL of the enqueued task — is.  Errors raised synchronously
before the task is enqueued are the `Except.error` branch. -/

/-- An exception raised synchronously by submission-path code. -/
inductive PyError
  | assertionError
  | unicodeEncodeError
  deriving Repr, DecidableEq

/-- The task handed to `self._executor.submit(self._get_response, signed_url)`:
its one argument, the signed URL. -/
structure Submission where
  signed_url : String
  deriving Repr, DecidableEq

/-- The client state: constructor fields plus the signer's memoization
cache (the only mutable state the methods touch). -/
structure GameJoltAPI where
  game_id : String
  private_key : String
  username : PyVal
  token : PyVal
  base_url : String
  values : Dict
  cache : Lru
  deriving Repr, DecidableEq

/-- `GameJoltAPI.__init__`. -/
def GameJoltAPI.init (game_id private_key : String)
    (username token : PyVal) : GameJoltAPI :=
  { game_id := game_id, private_key := private_key,
    username := username, token := token,
    base_url := "http://api.gamejolt.com/api/game/v1/",
    values := [("format", .str "json"), ("game_id", .str game_id)],
    cache := ⟨[]⟩ }

/-- The body of `_encode_signed_url` (inside the `lru_cache` wrapper):
ASCII-encode `url + private_key` (`Option.none` is the `UnicodeEncodeError`),
SHA-1 it, and append the url-encoded signature parameter with `&`. -/
def encodeSignedUrlRaw (private_key url : String) : Option String :=
  if allAscii (url ++ private_key) then
    let signature := sha1hexdigest (asciiBytes (url ++ private_key))
    some (url ++ "&" ++ urlencode [("signature", .str signature)])
  else Option.none

/-- `_encode_signed_url`: the cached signer, threading the cache state. -/
def GameJoltAPI.encode_signed_url (api : GameJoltAPI) (url : String) :
    Option (String × GameJoltAPI) :=
  match lruCall (encodeSignedUrlRaw api.private_key) api.cache url with
  | Option.none => Option.none
  | some (s, c) => some (s, { api with cache := c })

/-- `_submit`: build the unsigned URL from endpoint and parameters, sign it
(raising `UnicodeEncodeError` before anything is enqueued when the
signature input is not ASCII), then enqueue the worker task. -/
def GameJoltAPI.submit (api : GameJoltAPI) (endpoint : String)
    (values : Dict) : Except PyError (Submission × GameJoltAPI) :=
  let url := endpoint ++ "?" ++ urlencode values
  match api.encode_signed_url url with
  | Option.none => .error .unicodeEncodeError
  | some (signed_url, api') => .ok (⟨signed_url⟩, api')

/-- `urllib.parse.urljoin` as used here: the base URL ends in `/` and every
endpoint suffix is a relative path, for which urljoin is concatenation. -/
def urljoin (base rel : String) : String := base ++ rel

/-! ## Endpoint builders

Each Python method copies `self._values`, adds its parameters, and calls
`_submit`.  The parameter dict each builder hands to `_submit` is split
out as a `..._values` definition so the theorems can speak about the
submitted parameters directly. -/

/-- The parameter dict built by `session_open`. -/
def GameJoltAPI.session_open_values (api : GameJoltAPI) : Dict :=
  dictSet (dictSet api.values "username" api.username) "user_token" api.token

/-- `session_open`. -/
def GameJoltAPI.session_open (api : GameJoltAPI) :
    Except PyError (Submission × GameJoltAPI) :=
  api.submit (urljoin api.base_url "sessions/open/") api.session_open_values

/-- The parameter dict built by `session_ping`. -/
def GameJoltAPI.session_ping_values (api : GameJoltAPI) (idle : Bool) : Dict :=
  let values := dictSet (dictSet api.values "username" api.username) "user_token" api.token
  if idle then dictSet values "status" (.str "idle")
  else dictSet values "status" (.str "active")

/-- `session_ping`. -/
def GameJoltAPI.session_ping (api : GameJoltAPI) (idle : Bool) :
    Except PyError (Submission × GameJoltAPI) :=
  api.submit (urljoin api.base_url "sessions/ping/") (api.session_ping_values idle)

/-- The parameter dict built by `session_close`. -/
def GameJoltAPI.session_close_values (api : GameJoltAPI) : Dict :=
  dictSet (dictSet api.values "username" api.username) "user_token" api.token

/-- `session_close`. -/
def GameJoltAPI.session_close (api : GameJoltAPI) :
    Except PyError (Submission × GameJoltAPI) :=
  api.submit (urljoin api.base_url "sessions/close/") api.session_close_values

/-- The parameter dict built by `trophies_fetch`: `achieved` is added when
the flag is true, `trophy_id` when it is truthy (`if trophy_id:`). -/
def GameJoltAPI.trophies_fetch_values (api : GameJoltAPI) (achieved : Bool)
    (trophy_id : PyVal) : Dict :=
  let values := dictSet (dictSet api.values "username" api.username) "user_token" api.token
  let values := if achieved then dictSet values "achieved" (.str "true") else values
  if trophy_id.truthy then dictSet values "trophy_id" trophy_id else values

/-- `trophies_fetch`. -/
def GameJoltAPI.trophies_fetch (api : GameJoltAPI) (achieved : Bool)
    (trophy_id : PyVal) : Except PyError (Submission × GameJoltAPI) :=
  api.submit (urljoin api.base_url "trophies/") (api.trophies_fetch_values achieved trophy_id)

/-- The parameter dict built by `trophies_add_achieved`. -/
def GameJoltAPI.trophies_add_achieved_values (api : GameJoltAPI)
    (trophy_id : PyVal) : Dict :=
  dictSet (dictSet (dictSet api.values "username" api.username)
    "user_token" api.token) "trophy_id" trophy_id

/-- `trophies_add_achieved`. -/
def GameJoltAPI.trophies_add_achieved (api : GameJoltAPI) (trophy_id : PyVal) :
    Except PyError (Submission × GameJoltAPI) :=
  api.submit (urljoin api.base_url "trophies/add-achieved/")
    (api.trophies_add_achieved_values trophy_id)

/-- The parameter dict built by `scores_fetch`. -/
def GameJoltAPI.scores_fetch_values (api : GameJoltAPI) (table_id limit : PyVal) : Dict :=
  let values := dictSet api.values "limit" limit
  if table_id.truthy then dictSet values "table_id" table_id else values

/-- `scores_fetch`. -/
def GameJoltAPI.scores_fetch (api : GameJoltAPI) (table_id limit : PyVal) :
    Except PyError (Submission × GameJoltAPI) :=
  api.submit (urljoin api.base_url "scores/") (api.scores_fetch_values table_id limit)

/-- The parameter dict built by `scores_add`: authenticated identity when
both `username` and `token` are truthy, else `guest=Guest`; then `sort`,
`score` (`score or sort`), and `table_id` when truthy. -/
def GameJoltAPI.scores_add_values (api : GameJoltAPI) (sort score table_id : PyVal) : Dict :=
  let values :=
    if api.username.truthy && api.token.truthy then
      dictSet (dictSet api.values "username" api.username) "user_token" api.token
    else dictSet api.values "guest" (.str "Guest")
  let values := dictSet values "sort" sort
  let values := dictSet values "score" (pyOr score sort)
  if table_id.truthy then dictSet values "table_id" table_id else values

/-- `scores_add`. -/
def GameJoltAPI.scores_add (api : GameJoltAPI) (sort score table_id : PyVal) :
    Except PyError (Submission × GameJoltAPI) :=
  api.submit (urljoin api.base_url "scores/add/") (api.scores_add_values sort score table_id)

/-- `scores_tables`: passes `self._values` itself (no copy) to `_submit`,
which only reads it. -/
def GameJoltAPI.scores_tables (api : GameJoltAPI) :
    Except PyError (Submission × GameJoltAPI) :=
  api.submit (urljoin api.base_url "scores/tables/") api.values

/-- The identity parameters shared by the `data_store_*` builders: include
`username`/`user_token` when both are truthy and `public` was not requested. -/
def GameJoltAPI.dataStoreIdentity (api : GameJoltAPI) (values : Dict)
    (pub : Bool) : Dict :=
  if api.username.truthy && api.token.truthy && !pub then
    dictSet (dictSet values "username" api.username) "user_token" api.token
  else values

/-- The parameter dict built by `data_store_fetch`. -/
def GameJoltAPI.data_store_fetch_values (api : GameJoltAPI) (key : PyVal)
    (pub : Bool) : Dict :=
  api.dataStoreIdentity (dictSet api.values "key" key) pub

/-- `data_store_fetch`. -/
def GameJoltAPI.data_store_fetch (api : GameJoltAPI) (key : PyVal) (pub : Bool) :
    Except PyError (Submission × GameJoltAPI) :=
  api.submit (urljoin api.base_url "data-store/") (api.data_store_fetch_values key pub)

/-- The parameter dict built by `data_store_set`. -/
def GameJoltAPI.data_store_set_values (api : GameJoltAPI) (key data : PyVal)
    (pub : Bool) : Dict :=
  api.dataStoreIdentity (dictSet (dictSet api.values "key" key) "data" data) pub

/-- `data_store_set`. -/
def GameJoltAPI.data_store_set (api : GameJoltAPI) (key data : PyVal) (pub : Bool) :
    Except PyError (Submission × GameJoltAPI) :=
  api.submit (urljoin api.base_url "data-store/set/") (api.data_store_set_values key data pub)

/-- The operations `data_store_update` accepts (its `assert`). -/
def allowedOperations : List String :=
  ["add", "subtract", "multiply", "divide", "append", "prepend"]

/-- The parameter dict built by `data_store_update` (after its assert). -/
def GameJoltAPI.data_store_update_values (api : GameJoltAPI)
    (key : PyVal) (operation : String) (value : PyVal) (pub : Bool) : Dict :=
  api.dataStoreIdentity
    (dictSet (dictSet (dictSet api.values "key" key) "operation" (.str operation))
      "value" value) pub

/-- `data_store_update`: the `assert operation in (...)` raises
`AssertionError` before the endpoint or parameters are built, so an invalid
operation never reaches `_submit`. -/
def GameJoltAPI.data_store_update (api : GameJoltAPI) (key : PyVal)
    (operation : String) (value : PyVal) (pub : Bool) :
    Except PyError (Submission × GameJoltAPI) :=
  if allowedOperations.contains operation then
    api.submit (urljoin api.base_url "data-store/update/")
      (api.data_store_update_values key operation value pub)
  else .error .assertionError

/-- The parameter dict built by `data_store_remove`. -/
def GameJoltAPI.data_store_remove_values (api : GameJoltAPI) (key : PyVal)
    (pub : Bool) : Dict :=
  api.dataStoreIdentity (dictSet api.values "key" key) pub

/-- `data_store_remove`. -/
def GameJoltAPI.data_store_remove (api : GameJoltAPI) (key : PyVal) (pub : Bool) :
    Except PyError (Submission × GameJoltAPI) :=
  api.submit (urljoin api.base_url "data-store/remove/") (api.data_store_remove_values key pub)

/-- The parameter dict built by `data_store_get_keys`. -/
def GameJoltAPI.data_store_get_keys_values (api : GameJoltAPI) (pub : Bool) : Dict :=
  api.dataStoreIdentity api.values pub

/-- `data_store_get_keys`. -/
def GameJoltAPI.data_store_get_keys (api : GameJoltAPI) (pub : Bool) :
    Except PyError (Submission × GameJoltAPI) :=
  api.submit (urljoin api.base_url "data-store/get-keys/") (api.data_store_get_keys_values pub)

/-! ## The worker (`_get_response`)

The worker runs `urlopen`, `json.loads`, and a `['response']` subscript
inside one `try`, and maps every exception to
`{'success': 'false', 'error': str(e)}`.  The external world — what
`urlopen` plus `json.loads` yield for the signed URL — is the worker's
input: a raised transport error, a body that fails to parse, or a parsed
JSON value. -/

/-- A parsed JSON value. -/
inductive JVal
  | jnull
  | jbool (b : Bool)
  | jnum (n : Int)
  | jstr (s : String)
  | jarr (elems : List JVal)
  | jobj (fields : List (String × JVal))
  deriving Repr

/-- Lookup of a string key in JSON object fields. -/
def jLookup (fields : List (String × JVal)) (k : String) : Option JVal :=
  match fields with
  | [] => Option.none
  | (k0, v0) :: rest => if k0 = k then some v0 else jLookup rest k

/-- Python's `parsed['response']`: a `KeyError` on a dict without the key,
a `TypeError` when the parsed value is not subscriptable by a string. -/
def subscriptResponse : JVal → Except String JVal
  | .jobj fields =>
    match jLookup fields "response" with
    | some v => .ok v
    | Option.none => .error "KeyError: 'response'"
  | .jarr _ => .error "TypeError: list indices must be integers or slices, not str"
  | _ => .error "TypeError: value is not subscriptable"

/-- What the transport and parser yield for one request: `urlopen` raised,
the body failed `json.loads`, or a parsed JSON body. -/
inductive NetOutcome
  | transportError (msg : String)
  | parseError (msg : String)
  | body (v : JVal)

/-- The dict the worker's `except` branch returns. -/
def errorDict (msg : String) : JVal :=
  .jobj [("success", .jstr "false"), ("error", .jstr msg)]

/-- `_get_response`: extract the `response` field of a parsed body; any
exception (transport, parse, or subscript) becomes `errorDict` instead of
propagating.  Totality of this function is the no-raise boundary. -/
def getResponse : NetOutcome → JVal
  | .transportError msg => errorDict msg
  | .parseError msg => errorDict msg
  | .body v =>
    match subscriptResponse v with
    | .ok r => r
    | .error msg => errorDict msg

/-- The failure cases of a `NetOutcome`, as the worker's `try` sees them:
everything except a parsed body carrying a `response` field. -/
def netFailure : NetOutcome → Bool
  | .transportError _ => true
  | .parseError _ => true
  | .body v =>
    match subscriptResponse v with
    | .ok _ => false
    | .error _ => true

/-! ## Derived notions used by the theorems -/

/-- A signer cache is well-formed for a private key when every entry holds
the value the signer body computes for its key.  The empty cache of a fresh
client is well-formed, and signing preserves well-formedness, so every
reachable cache state satisfies this. -/
def Lru.wf (private_key : String) (c : Lru) : Prop :=
  ∀ k v, (k, v) ∈ c.entries → encodeSignedUrlRaw private_key k = some v

/-- Every character of the string is a lowercase hex digit. -/
def isLowerHex (s : String) : Bool := s.data.all (fun c => hexChars.contains c)

/-- The client state after a method call: the new state on success, the
unchanged state when the method raised before enqueueing anything. -/
def resState (r : Except PyError (Submission × GameJoltAPI))
    (api : GameJoltAPI) : GameJoltAPI :=
  match r with
  | .ok p => p.2
  | .error _ => api

/-- The constructor-visible client fields are unchanged between two states:
`_game_id`, `_private_key`, `_base_url`, `username`, `token`, `_values`. -/
def framePreserved (api api' : GameJoltAPI) : Prop :=
  api'.game_id = api.game_id ∧ api'.private_key = api.private_key ∧
  api'.base_url = api.base_url ∧ api'.username = api.username ∧
  api'.token = api.token ∧ api'.values = api.values

/-- The client state after signing one URL (result string discarded;
on a `UnicodeEncodeError` the state is unchanged). -/
def signState (api : GameJoltAPI) (url : String) : GameJoltAPI :=
  match api.encode_signed_url url with
  | some (_, api') => api'
  | Option.none => api

/-- The client state after signing a list of URLs in order. -/
def signMany (api : GameJoltAPI) (urls : List String) : GameJoltAPI :=
  urls.foldl signState api

/-- Modelled from the spec: the separator the spec says the signer chooses —
`&` when the unsigned URL already has a query string, `?` when it does not.
(The source's `_encode_signed_url` line 40 appends with an unconditional
`&`; this definition exists to compare the spec's claimed rule against it.) -/
def specSeparator (url : String) : String :=
  if '?' ∈ url.data then "&" else "?"

/-- Modelled from the spec: the claimed tagged success shape
`APIResult {success: true, payload: mapping}` the spec says the worker
returns on success.  (The source's `_get_response` returns the extracted
`response` field itself; this definition exists to compare the spec's
claimed shape against it.) -/
def specTaggedSuccess (payload : JVal) : JVal :=
  .jobj [("success", .jbool true), ("payload", payload)]

/-! ## Helper lemmas -/

/-- A hex digit is one of the sixteen lowercase hex characters. -/
theorem hexDigit_mem (n : Nat) : hexDigit n ∈ hexChars := by
  unfold hexDigit
  rcases Nat.lt_or_ge n 16 with h | h
  · interval_cases n <;> decide
  · rw [List.getD_eq_default]
    · decide
    · simpa [hexChars] using h

/-- The hex rendering of a word consists of lowercase hex characters. -/
theorem wordHex_lowerHex (n : Nat) : ∀ c ∈ wordHex n, c ∈ hexChars := by
  intro c hc
  unfold wordHex at hc
  rcases List.mem_map.mp hc with ⟨i, _, rfl⟩
  exact hexDigit_mem _

/-- Every SHA-1 hex digest is entirely lowercase hex characters. -/
theorem sha1hexdigest_lowerHex (msg : List Nat) :
    isLowerHex (sha1hexdigest msg) = true := by
  unfold isLowerHex sha1hexdigest
  rw [List.all_eq_true]
  intro c hc
  simp only [List.mem_append] at hc
  rw [List.elem_iff]
  rcases hc with ((((h | h) | h) | h) | h) <;> exact wordHex_lowerHex _ _ h

/-- Every SHA-1 hex digest has exactly 40 characters. -/
theorem sha1hexdigest_length (msg : List Nat) :
    (sha1hexdigest msg).length = 40 := by
  simp [sha1hexdigest, wordHex, String.length]

/-- `quote_plus`'s per-character expansion leaves a list of always-safe
characters unchanged. -/
theorem flatMap_quote_safe (l : List Char)
    (h : ∀ c ∈ l, alwaysSafe c.toNat = true) :
    (l.flatMap (fun c => if c = ' ' then ['+'] else (utf8Bytes c).flatMap quoteByte)) = l := by
  induction l with
  | nil => rfl
  | cons c cs ih =>
    have hc := h c (List.mem_cons_self c cs)
    have hlt : c.toNat < 128 := by
      unfold alwaysSafe at hc
      simp only [Bool.or_eq_true, Bool.and_eq_true, decide_eq_true_eq, beq_iff_eq] at hc
      omega
    have hsp : ¬ c = ' ' := by
      intro he
      rw [he] at hc
      simp [alwaysSafe] at hc
    rw [List.flatMap_cons, ih (fun x hx => h x (List.mem_cons_of_mem c hx)), if_neg hsp]
    simp only [utf8Bytes, if_pos hlt, List.flatMap_cons, List.flatMap_nil,
      List.append_nil, quoteByte, if_pos hc, Char.ofNat_toNat, List.singleton_append]

/-- `quote_plus` passes a string of always-safe characters through
unchanged. -/
theorem quotePlus_eq_self (s : String)
    (h : s.data.all (fun c => alwaysSafe c.toNat) = true) : quotePlus s = s := by
  rw [List.all_eq_true] at h
  apply String.ext
  show (s.data.flatMap _) = s.data
  exact flatMap_quote_safe s.data h

/-- Lowercase hex characters are always-safe for `quote_plus`. -/
theorem hexChars_safe : ∀ c ∈ hexChars, alwaysSafe c.toNat = true := by decide

/-- `urlencode` of the signature parameter alone, for a lowercase-hex
signature, is literally `signature=<hex>`. -/
theorem urlencode_signature (sig : String) (h : isLowerHex sig = true) :
    urlencode [("signature", .str sig)] = "signature=" ++ sig := by
  unfold urlencode
  have h1 : quotePlus "signature" = "signature" := quotePlus_eq_self _ (by decide)
  have h2 : quotePlus sig = sig := by
    apply quotePlus_eq_self
    rw [List.all_eq_true]
    intro c hc
    unfold isLowerHex at h
    rw [List.all_eq_true] at h
    exact hexChars_safe c (List.elem_iff.mp (h c hc))
  simp only [List.map_cons, List.map_nil, PyVal.pyStr, h1, h2]
  rfl

/-- The signer body on an ASCII input: the URL, `&signature=`, and the
lowercase-hex SHA-1 digest of `url + private_key`. -/
theorem encodeSignedUrlRaw_eq (private_key url : String)
    (h : allAscii (url ++ private_key) = true) :
    encodeSignedUrlRaw private_key url =
      some (url ++ "&signature=" ++ sha1hexdigest (asciiBytes (url ++ private_key))) := by
  unfold encodeSignedUrlRaw
  rw [if_pos h]
  show some (url ++ "&" ++
      urlencode [("signature", .str (sha1hexdigest (asciiBytes (url ++ private_key))))]) = _
  rw [urlencode_signature _ (sha1hexdigest_lowerHex _)]
  congr 1
  rw [String.append_assoc, String.append_assoc, ← String.append_assoc "&"]
  rfl

/-- Through a well-formed cache, the cached call returns exactly what the
underlying function returns: hit values agree with the function by
well-formedness, miss values are the function's own. -/
theorem lruCall_wf_fst (f : String → Option String) (c : Lru) (k : String)
    (hwf : ∀ k0 v0, (k0, v0) ∈ c.entries → f k0 = some v0) :
    (lruCall f c k).map Prod.fst = f k := by
  unfold lruCall
  cases hl : lruLookup c k with
  | none =>
    cases hf : f k <;> simp [hf]
  | some v =>
    unfold lruLookup at hl
    rcases Option.map_eq_some'.mp hl with ⟨e, hfind, hev⟩
    have hmem : e ∈ c.entries := List.mem_of_find?_eq_some hfind
    have hek : e.1 = k := by
      have := List.find?_some hfind
      simpa using this
    have hmem' : (e.1, e.2) ∈ c.entries := by rw [Prod.mk.eta]; exact hmem
    have hfk := hwf e.1 e.2 hmem'
    rw [hek] at hfk
    simp [hfk, hev]

/-- A well-formed cache stays well-formed across a cached call. -/
theorem lruCall_wf_preserved (f : String → Option String) (c : Lru) (k : String)
    (v : String) (c' : Lru)
    (hwf : ∀ k0 v0, (k0, v0) ∈ c.entries → f k0 = some v0)
    (hcall : lruCall f c k = some (v, c')) :
    ∀ k0 v0, (k0, v0) ∈ c'.entries → f k0 = some v0 := by
  have hfk : f k = some v := by
    have := lruCall_wf_fst f c k hwf
    rw [hcall] at this
    simpa using this.symm
  unfold lruCall at hcall
  cases hl : lruLookup c k with
  | none =>
    rw [hl] at hcall
    cases hf : f k with
    | none => rw [hf] at hcall; simp at hcall
    | some w =>
      rw [hf] at hcall
      simp only [Option.some.injEq, Prod.mk.injEq] at hcall
      rcases hcall with ⟨rfl, rfl⟩
      intro k0 v0 hmem
      have hmem' : (k0, v0) ∈ (k, w) :: c.entries := List.take_subset _ _ hmem
      rcases List.mem_cons.mp hmem' with he | he
      · cases he; exact hf
      · exact hwf _ _ he
  | some w =>
    rw [hl] at hcall
    simp only [Option.some.injEq, Prod.mk.injEq] at hcall
    rcases hcall with ⟨rfl, rfl⟩
    intro k0 v0 hmem
    rcases List.mem_cons.mp hmem with he | he
    · cases he; exact hfk
    · exact hwf _ _ (List.mem_of_mem_filter he)

/-- The signer body fails exactly when the signature input is not ASCII. -/
theorem encodeSignedUrlRaw_none_iff (pk url : String) :
    encodeSignedUrlRaw pk url = Option.none ↔ allAscii (url ++ pk) = false := by
  unfold encodeSignedUrlRaw
  cases h : allAscii (url ++ pk) <;> simp [h]

/-- Through a well-formed cache, `_encode_signed_url` returns exactly what
its body computes, whatever the cache contents. -/
theorem encode_signed_url_fst (api : GameJoltAPI) (url : String)
    (hwf : Lru.wf api.private_key api.cache) :
    (api.encode_signed_url url).map Prod.fst = encodeSignedUrlRaw api.private_key url := by
  have hfst := lruCall_wf_fst (encodeSignedUrlRaw api.private_key) api.cache url hwf
  unfold GameJoltAPI.encode_signed_url
  cases hc : lruCall (encodeSignedUrlRaw api.private_key) api.cache url with
  | none => rw [hc] at hfst; simpa using hfst
  | some p =>
    rw [hc] at hfst
    obtain ⟨v, c⟩ := p
    simpa using hfst

/-- A successful `_encode_signed_url` call changes only the cache, and
keeps it well-formed. -/
theorem encode_signed_url_spec (api : GameJoltAPI) (url s : String)
    (api' : GameJoltAPI) (h : api.encode_signed_url url = some (s, api')) :
    framePreserved api api' ∧
    (Lru.wf api.private_key api.cache → Lru.wf api.private_key api'.cache) := by
  unfold GameJoltAPI.encode_signed_url at h
  cases hc : lruCall (encodeSignedUrlRaw api.private_key) api.cache url with
  | none => rw [hc] at h; simp at h
  | some p =>
    rw [hc] at h
    obtain ⟨v, c⟩ := p
    simp only [Option.some.injEq, Prod.mk.injEq] at h
    obtain ⟨rfl, rfl⟩ := h
    refine ⟨⟨rfl, rfl, rfl, rfl, rfl, rfl⟩, fun hwf => ?_⟩
    exact lruCall_wf_preserved _ _ _ _ _ hwf hc

/-- `_submit` changes none of the constructor-visible client fields. -/
theorem submit_frame (api : GameJoltAPI) (endpoint : String) (values : Dict) :
    framePreserved api (resState (api.submit endpoint values) api) := by
  show framePreserved api (resState
    (match api.encode_signed_url (endpoint ++ "?" ++ urlencode values) with
      | Option.none => .error .unicodeEncodeError
      | some (signed_url, api') => .ok (Submission.mk signed_url, api')) api)
  cases hc : api.encode_signed_url (endpoint ++ "?" ++ urlencode values) with
  | none => exact ⟨rfl, rfl, rfl, rfl, rfl, rfl⟩
  | some p =>
    obtain ⟨s, api'⟩ := p
    exact (encode_signed_url_spec api _ s api' hc).1

/-- `_submit` keeps the signer cache well-formed. -/
theorem submit_wf (api : GameJoltAPI) (endpoint : String) (values : Dict)
    (hwf : Lru.wf api.private_key api.cache) :
    Lru.wf api.private_key (resState (api.submit endpoint values) api).cache := by
  show Lru.wf api.private_key (resState
    (match api.encode_signed_url (endpoint ++ "?" ++ urlencode values) with
      | Option.none => .error .unicodeEncodeError
      | some (signed_url, api') => .ok (Submission.mk signed_url, api')) api).cache
  cases hc : api.encode_signed_url (endpoint ++ "?" ++ urlencode values) with
  | none => exact hwf
  | some p =>
    obtain ⟨s, api'⟩ := p
    exact (encode_signed_url_spec api _ s api' hc).2 hwf

/-- A fresh client's signer cache is well-formed. -/
theorem init_wf (gid pk : String) (u t : PyVal) :
    Lru.wf pk (GameJoltAPI.init gid pk u t).cache := by
  intro k v h
  cases h

/-- `_submit` raises `UnicodeEncodeError` exactly when the signature input
(unsigned URL plus private key) is not ASCII. -/
theorem submit_error_iff (api : GameJoltAPI) (endpoint : String) (values : Dict)
    (hwf : Lru.wf api.private_key api.cache) :
    api.submit endpoint values = .error .unicodeEncodeError ↔
      allAscii ((endpoint ++ "?" ++ urlencode values) ++ api.private_key) = false := by
  have hfst := encode_signed_url_fst api (endpoint ++ "?" ++ urlencode values) hwf
  rw [← encodeSignedUrlRaw_none_iff]
  show (match api.encode_signed_url (endpoint ++ "?" ++ urlencode values) with
      | Option.none => Except.error PyError.unicodeEncodeError
      | some (signed_url, api') => Except.ok (Submission.mk signed_url, api')) =
        .error .unicodeEncodeError ↔ _
  cases hc : api.encode_signed_url (endpoint ++ "?" ++ urlencode values) with
  | none =>
    rw [hc] at hfst
    simp only [Option.map_none'] at hfst
    simp [hfst.symm]
  | some p =>
    rw [hc] at hfst
    obtain ⟨s, api'⟩ := p
    simp only [Option.map_some'] at hfst
    simp [hfst.symm]

/-- Filtering out a present element that satisfies `p` strictly shrinks
the list. -/
theorem length_filter_lt_of_mem {α : Type} (p : α → Bool) (l : List α) (a : α)
    (ha : a ∈ l) (hpa : p a = true) :
    (l.filter (fun x => !p x)).length < l.length := by
  induction l with
  | nil => cases ha
  | cons b bs ih =>
    rcases List.mem_cons.mp ha with rfl | hmem
    · rw [List.filter_cons, if_neg (by simp [hpa])]
      exact Nat.lt_succ_of_le (List.length_filter_le _ _)
    · rw [List.filter_cons]
      by_cases hb : (!p b) = true
      · rw [if_pos hb]
        simpa using Nat.succ_lt_succ (ih hmem)
      · rw [if_neg hb]
        exact Nat.lt_succ_of_lt (ih hmem)

/-- One cached call keeps the cache within the 128-entry bound: a hit
re-inserts an entry it removed, a miss inserts one entry and truncates to
`maxsize`. -/
theorem lruCall_bounded (f : String → Option String) (cch : Lru) (k : String)
    (h : cch.entries.length ≤ 128) (v : String) (c' : Lru)
    (hc : lruCall f cch k = some (v, c')) : c'.entries.length ≤ 128 := by
  unfold lruCall at hc
  cases hl : lruLookup cch k with
  | some w =>
    rw [hl] at hc
    simp only [Option.some.injEq, Prod.mk.injEq] at hc
    obtain ⟨-, hceq⟩ := hc
    subst hceq
    show ((k, w) :: cch.entries.filter (fun e => e.1 != k)).length ≤ 128
    unfold lruLookup at hl
    rcases Option.map_eq_some'.mp hl with ⟨e, hfind, -⟩
    have hmem := List.mem_of_find?_eq_some hfind
    have hpe := List.find?_some hfind
    have hlt : (cch.entries.filter (fun x => !(x.1 == k))).length <
        cch.entries.length :=
      length_filter_lt_of_mem (fun x : String × String => x.1 == k)
        cch.entries e hmem hpe
    have hsame : cch.entries.filter (fun e => e.1 != k) =
        cch.entries.filter (fun x => !(x.1 == k)) := rfl
    rw [List.length_cons, hsame]
    omega
  | none =>
    rw [hl] at hc
    cases hf : f k with
    | none => rw [hf] at hc; cases hc
    | some w =>
      rw [hf] at hc
      simp only [Option.some.injEq, Prod.mk.injEq] at hc
      obtain ⟨-, hceq⟩ := hc
      subst hceq
      show (((k, w) :: cch.entries).take lruMaxsize).length ≤ 128
      exact List.length_take_le _ _

/-- The cached signer never grows the cache past 128 entries. -/
theorem signState_cache_bounded (api : GameJoltAPI) (url : String)
    (h : api.cache.entries.length ≤ 128) :
    (signState api url).cache.entries.length ≤ 128 := by
  unfold signState GameJoltAPI.encode_signed_url
  cases hc : lruCall (encodeSignedUrlRaw api.private_key) api.cache url with
  | none => exact h
  | some p =>
    obtain ⟨v, c⟩ := p
    show c.entries.length ≤ 128
    exact lruCall_bounded _ _ _ h v c hc

/-- C10 helper: `data_store_update` preserves the client frame whether the
assert passes or fails. -/
theorem data_store_update_frame (api : GameJoltAPI) (key : PyVal)
    (operation : String) (value : PyVal) (pub : Bool) :
    framePreserved api
      (resState (api.data_store_update key operation value pub) api) := by
  unfold GameJoltAPI.data_store_update
  cases hop : allowedOperations.contains operation with
  | true =>
    rw [if_pos rfl]
    exact submit_frame _ _ _
  | false =>
    rw [if_neg (by simp)]
    exact ⟨rfl, rfl, rfl, rfl, rfl, rfl⟩

/-! ## Claims -/

/-- C1: For every ASCII unsigned URL string the signer is deterministic —
through any well-formed cache state the same input yields the same signed
URL, a pure function of the URL and the private key — and the appended
signature parameter is the lowercase hexadecimal SHA-1 digest (40 lowercase
hex characters) of the byte concatenation of the unsigned URL and the
client's private key. -/
theorem C1_signer_deterministic_sha1 (api : GameJoltAPI) (url : String)
    (hwf : Lru.wf api.private_key api.cache)
    (hascii : allAscii (url ++ api.private_key) = true) :
    ∃ api', api.encode_signed_url url =
        some (url ++ "&signature=" ++
          sha1hexdigest (asciiBytes (url ++ api.private_key)), api') ∧
      isLowerHex (sha1hexdigest (asciiBytes (url ++ api.private_key))) = true ∧
      (sha1hexdigest (asciiBytes (url ++ api.private_key))).length = 40 := by
  have hfst := encode_signed_url_fst api url hwf
  rw [encodeSignedUrlRaw_eq _ _ hascii] at hfst
  rcases Option.map_eq_some'.mp hfst with ⟨p, hsome, hs⟩
  obtain ⟨s, api'⟩ := p
  refine ⟨api', ?_, sha1hexdigest_lowerHex _, sha1hexdigest_length _⟩
  rw [← hs]
  exact hsome

/-- Witness for C1: a concrete client (empty, well-formed cache) and a
concrete ASCII URL. -/
theorem C1_signer_deterministic_sha1_witness :
    (let api0 := GameJoltAPI.init "123" "secret" PyVal.pynone PyVal.pynone;
     let u := "http://api.gamejolt.com/api/game/v1/scores/?format=json&game_id=123";
     ∃ api', api0.encode_signed_url u =
        some (u ++ "&signature=" ++
          sha1hexdigest (asciiBytes (u ++ api0.private_key)), api') ∧
      isLowerHex (sha1hexdigest (asciiBytes (u ++ api0.private_key))) = true ∧
      (sha1hexdigest (asciiBytes (u ++ api0.private_key))).length = 40) :=
  C1_signer_deterministic_sha1
    (GameJoltAPI.init "123" "secret" PyVal.pynone PyVal.pynone)
    "http://api.gamejolt.com/api/game/v1/scores/?format=json&game_id=123"
    (init_wf _ _ _ _) (by decide)

/-- C2: The worker `_get_response` is a total function of the network
outcome — no exception escapes it — and on every failure (transport error,
body that fails to parse, or a parsed body without a usable `response`
field) it returns the dict `{'success': 'false', 'error': <message>}`
instead of propagating the exception. -/
theorem C2_worker_never_raises (net : NetOutcome) (h : netFailure net = true) :
    ∃ msg, getResponse net =
      JVal.jobj [("success", .jstr "false"), ("error", .jstr msg)] := by
  cases net with
  | transportError msg => exact ⟨msg, rfl⟩
  | parseError msg => exact ⟨msg, rfl⟩
  | body v =>
    simp only [netFailure] at h
    simp only [getResponse]
    cases hs : subscriptResponse v with
    | ok r => rw [hs] at h; simp at h
    | error msg => exact ⟨msg, rfl⟩

/-- Witness for C2: a transport failure and a body without a `response`
field both map to the error dict. -/
theorem C2_worker_never_raises_witness :
    ∃ msg, getResponse (.transportError "urlopen error: connection refused") =
      JVal.jobj [("success", .jstr "false"), ("error", .jstr msg)] :=
  C2_worker_never_raises (.transportError "urlopen error: connection refused") rfl

/-- C6: For every operation outside
{add, subtract, multiply, divide, append, prepend}, `data_store_update`
fails synchronously with the `assert`'s `AssertionError` and returns no
submission: `_submit` is never reached, so nothing is enqueued and no
network activity occurs. -/
theorem C6_update_invalid_operation (api : GameJoltAPI) (key : PyVal)
    (operation : String) (value : PyVal) (pub : Bool)
    (h : allowedOperations.contains operation = false) :
    api.data_store_update key operation value pub = .error .assertionError := by
  unfold GameJoltAPI.data_store_update
  rw [h]
  rfl

/-- Witness for C6 at `operation="invalid"`. -/
theorem C6_update_invalid_operation_witness :
    (GameJoltAPI.init "123" "secret" PyVal.pynone PyVal.pynone).data_store_update
      (.str "k") "invalid" (.str "v") false = .error .assertionError :=
  C6_update_invalid_operation _ _ "invalid" _ _ (by decide)

/-- C9 counterexample: a successful call whose parsed body carries
`{"response": {"score": "42"}}` makes the worker return the inner mapping
`{"score": "42"}` itself — not a value of the claimed tagged shape
`{success: true, payload: ...}` for any payload. -/
theorem C9_counterexample :
    ¬ ∃ p, getResponse (.body (.jobj [("response", .jobj [("score", .jstr "42")])])) =
      specTaggedSuccess p := by
  rintro ⟨p, h⟩
  simp [getResponse, subscriptResponse, jLookup, specTaggedSuccess] at h

/-- C9 (amended): on a successful network call whose parsed body carries a
`response` field, the worker returns the extracted field unchanged — a
passthrough of the upstream value, with no success/payload envelope added
by the client.  (The failure branch alone builds a tagged dict.) -/
theorem C9_success_returns_response_field (v r : JVal)
    (h : subscriptResponse v = .ok r) : getResponse (.body v) = r := by
  simp only [getResponse]
  rw [h]

/-- Witness for the amended C9 at a concrete parsed body. -/
theorem C9_success_returns_response_field_witness :
    getResponse (.body (.jobj [("response", .jstr "ok")])) = .jstr "ok" :=
  C9_success_returns_response_field _ _ rfl

/-- C3 counterexample: for the ASCII unsigned URL `"abc"`, which has no
query string, and private key `"secret"`, the signer does not produce the
`?`-separated URL the claim prescribes — line 40 appends with `&`
unconditionally. -/
theorem C3_counterexample :
    encodeSignedUrlRaw "secret" "abc" ≠
      some ("abc" ++ specSeparator "abc" ++ "signature=" ++
        sha1hexdigest (asciiBytes ("abc" ++ "secret"))) := by decide

/-- C3 (amended): the signer appends the URL-encoded signature parameter
with the `&` separator unconditionally, whether or not the unsigned URL
already has a query string; every unsigned URL `_submit` builds has the
form `endpoint ++ "?" ++ urlencode values`, which already contains `?`, so
on every URL the pipeline actually signs the spec's separator rule also
selects `&`. -/
theorem C3_separator_always_ampersand (private_key url : String)
    (h : allAscii (url ++ private_key) = true) :
    encodeSignedUrlRaw private_key url =
      some (url ++ "&signature=" ++
        sha1hexdigest (asciiBytes (url ++ private_key))) ∧
    ∀ endpoint values, specSeparator (endpoint ++ "?" ++ urlencode values) = "&" := by
  constructor
  · exact encodeSignedUrlRaw_eq _ _ h
  · intro endpoint values
    have hmem : '?' ∈ (endpoint ++ "?" ++ urlencode values).data := by
      rw [String.data_append, String.data_append]
      refine List.mem_append_left _ (List.mem_append_right _ ?_)
      decide
    unfold specSeparator
    rw [if_pos hmem]

/-- Witness for the amended C3 at a concrete private key and URL. -/
theorem C3_separator_always_ampersand_witness :
    (let u := "http://api.gamejolt.com/api/game/v1/scores/tables/?format=json";
     encodeSignedUrlRaw "secret" u =
      some (u ++ "&signature=" ++
        sha1hexdigest (asciiBytes (u ++ "secret"))) ∧
     ∀ endpoint values, specSeparator (endpoint ++ "?" ++ urlencode values) = "&") :=
  C3_separator_always_ampersand "secret"
    "http://api.gamejolt.com/api/game/v1/scores/tables/?format=json" (by decide)

/-- C5 counterexample: with `achieved=True` and `trophy_id=1` both
supplied, the parameters `trophies_fetch` submits carry `trophy_id` and
still carry `achieved="true"` — supplying `trophy_id` does not keep the
achieved filter out of the request. -/
theorem C5_counterexample :
    (let vals := (GameJoltAPI.init "123" "secret" (.str "user")
        (.str "tok")).trophies_fetch_values true (.int 1);
     dictGet vals "trophy_id" = some (.int 1) ∧
     ¬ dictGet vals "achieved" = Option.none) := by decide

/-- C5 (amended): in the parameters `trophies_fetch` submits, `trophy_id`
is present exactly when it was supplied with a truthy value (non-`None`
and nonzero, per `if trophy_id:`), and `achieved="true"` is present
exactly when `achieved` is true — independent of `trophy_id`.  Supplying
`trophy_id` therefore does not disable the achieved filter in the
submitted parameters; the documented override is the remote service's
behavior. -/
theorem C5_trophy_id_does_not_drop_achieved (gid pk : String) (u tok : PyVal)
    (achieved : Bool) (trophy_id : PyVal) :
    (let vals := (GameJoltAPI.init gid pk u tok).trophies_fetch_values
        achieved trophy_id;
     dictGet vals "trophy_id" =
        (if trophy_id.truthy then some trophy_id else Option.none) ∧
     dictGet vals "achieved" =
        (if achieved then some (.str "true") else Option.none)) := by
  cases achieved <;> cases htid : trophy_id.truthy <;>
    simp [GameJoltAPI.init, GameJoltAPI.trophies_fetch_values, dictSet, dictGet, htid]

/-- C7: `scores_add` applies the identity rule: when username and token are
not both set (Python-truthy: non-`None` and nonempty), the submitted
parameters include `guest=Guest` and omit `username`/`user_token`; when
both are set they include `username` and `user_token` and omit `guest`. -/
theorem C7_scores_add_identity (gid pk : String) (u tok : PyVal)
    (sort score table_id : PyVal) :
    (let vals := (GameJoltAPI.init gid pk u tok).scores_add_values
        sort score table_id;
     dictGet vals "guest" =
        (if u.truthy && tok.truthy then Option.none else some (.str "Guest")) ∧
     dictGet vals "username" =
        (if u.truthy && tok.truthy then some u else Option.none) ∧
     dictGet vals "user_token" =
        (if u.truthy && tok.truthy then some tok else Option.none)) := by
  cases hu : u.truthy <;> cases ht : tok.truthy <;> cases htab : table_id.truthy <;>
    simp [GameJoltAPI.init, GameJoltAPI.scores_add_values, dictSet, dictGet, hu, ht, htab]

set_option maxRecDepth 4000 in
/-- C4 counterexample: the signer's cache does evict.  `"u0"` is cached
right after it is signed, but after the client signs 129 distinct unsigned
URLs (`functools.lru_cache()`'s default `maxsize` is 128) the entry for
`"u0"` is gone. -/
theorem C4_counterexample :
    (let api0 := GameJoltAPI.init "123" "k" PyVal.pynone PyVal.pynone;
     let urls := (List.range 129).map (fun i => "u" ++ toString i);
     lruLookup (signMany api0 ["u0"]).cache "u0" ≠ Option.none ∧
     lruLookup (signMany api0 urls).cache "u0" = Option.none) := by
  decide

/-- C4 (amended): the signature cache is not unbounded — it is the
`functools.lru_cache()` default, bounded at `maxsize=128` entries with
least-recently-used eviction.  Signing never grows the cache past 128
entries, and once the bound is reached a new distinct URL evicts the
least-recently-used entry, so previously cached entries do not all remain
over the client's lifetime. -/
theorem C4_cache_bounded_128 (api : GameJoltAPI) (url : String)
    (h : api.cache.entries.length ≤ 128) :
    (signState api url).cache.entries.length ≤ 128 ∧ lruMaxsize = 128 :=
  ⟨signState_cache_bounded api url h, rfl⟩

/-- Witness for the amended C4 at a fresh client. -/
theorem C4_cache_bounded_128_witness :
    ((signState (GameJoltAPI.init "123" "secret" PyVal.pynone PyVal.pynone)
      "u").cache.entries.length ≤ 128 ∧ lruMaxsize = 128) :=
  C4_cache_bounded_128 (GameJoltAPI.init "123" "secret" PyVal.pynone PyVal.pynone)
    "u" (by decide)

/-- C8: a submission fails synchronously with `UnicodeEncodeError` — no
task value is produced, so nothing is enqueued and no network activity
occurs — exactly when the signature input (the unsigned URL built from the
endpoint and parameters, plus the private key) contains non-ASCII
characters; for ASCII inputs the submission succeeds without such an
error.  (The well-formed-cache hypothesis holds for every reachable
client state: `init_wf`, `submit_wf`.) -/
theorem C8_nonascii_raises_before_enqueue (api : GameJoltAPI)
    (endpoint : String) (values : Dict)
    (hwf : Lru.wf api.private_key api.cache) :
    api.submit endpoint values = .error .unicodeEncodeError ↔
      allAscii ((endpoint ++ "?" ++ urlencode values) ++ api.private_key) = false :=
  submit_error_iff api endpoint values hwf

/-- Witness for C8: a client with a non-ASCII private key, fresh cache. -/
theorem C8_nonascii_raises_before_enqueue_witness :
    ((GameJoltAPI.init "123" "ключ" PyVal.pynone PyVal.pynone).submit
        "http://api.gamejolt.com/api/game/v1/trophies/"
        [("format", .str "json")] = .error .unicodeEncodeError ↔
      allAscii (("http://api.gamejolt.com/api/game/v1/trophies/" ++ "?" ++
        urlencode [("format", PyVal.str "json")]) ++
        (GameJoltAPI.init "123" "ключ" PyVal.pynone PyVal.pynone).private_key) = false) :=
  C8_nonascii_raises_before_enqueue
    (GameJoltAPI.init "123" "ключ" PyVal.pynone PyVal.pynone)
    "http://api.gamejolt.com/api/game/v1/trophies/"
    [("format", .str "json")] (init_wf _ _ _ _)

/-- C10: every endpoint builder leaves the constructor-visible client
state unchanged: after any call to `session_open`, `session_ping`,
`session_close`, `trophies_fetch`, `trophies_add_achieved`,
`scores_fetch`, `scores_add`, `scores_tables`, or any `data_store_*`
method, the fields `_game_id`, `_private_key`, `_base_url`, `username`,
`token`, and the base parameter mapping `_values` equal their values
before the call (only the signer's memoization cache may change). -/
theorem C10_builders_preserve_state (api : GameJoltAPI)
    (idle achieved pub : Bool)
    (trophy_id table_id limit sort score key data value : PyVal)
    (operation : String) :
    framePreserved api (resState api.session_open api) ∧
    framePreserved api (resState (api.session_ping idle) api) ∧
    framePreserved api (resState api.session_close api) ∧
    framePreserved api (resState (api.trophies_fetch achieved trophy_id) api) ∧
    framePreserved api (resState (api.trophies_add_achieved trophy_id) api) ∧
    framePreserved api (resState (api.scores_fetch table_id limit) api) ∧
    framePreserved api (resState (api.scores_add sort score table_id) api) ∧
    framePreserved api (resState api.scores_tables api) ∧
    framePreserved api (resState (api.data_store_fetch key pub) api) ∧
    framePreserved api (resState (api.data_store_set key data pub) api) ∧
    framePreserved api (resState (api.data_store_update key operation value pub) api) ∧
    framePreserved api (resState (api.data_store_remove key pub) api) ∧
    framePreserved api (resState (api.data_store_get_keys pub) api) :=
  ⟨submit_frame _ _ _, submit_frame _ _ _, submit_frame _ _ _,
   submit_frame _ _ _, submit_frame _ _ _, submit_frame _ _ _,
   submit_frame _ _ _, submit_frame _ _ _, submit_frame _ _ _,
   submit_frame _ _ _, data_store_update_frame _ _ _ _ _,
   submit_frame _ _ _, submit_frame _ _ _⟩

end GameJolt
